import Mathlib

/-!
Shallow embedding of `src/module/train.py` (class `Trainer`) and proofs of the
spec claims about it.

Modelling conventions:
* Python floats are modelled as real numbers (`ℝ`) where `math.exp` is
  involved, and as rationals (`ℚ`) in the epoch-loop bookkeeping, where only
  comparisons and record keeping occur.
* Python's true division raises `ZeroDivisionError` on a zero denominator;
  it is embedded as `pydiv`, returning `Option`.
* `round(x, 3)` is embedded as `round3` (round to 3 decimal places; the exact
  tie-breaking rule of Python's float rounding is immaterial to every claim,
  which only evaluates it away from ties).
* The per-batch losses produced by the external model are an arbitrary list of
  reals; the per-epoch results consumed by `train()` are arbitrary functions of
  the epoch index, since they come from the opaque model/data collaborators.
* Attribute assignment in `__init__` is embedded as a sequential association
  list, so that reading an attribute that was never assigned is visibly an
  `AttributeError` (Python semantics of `self.<name>`).
-/

/-! ### Python attribute-map model of `Trainer.__init__` (lines 8-34) -/

/-- An opaque Python value: enough structure to distinguish the objects
`__init__` stores without modelling their internals. -/
inductive PyVal where
  | obj : String → PyVal
  | num : ℚ → PyVal
  | bool : Bool → PyVal
  | str : String → PyVal
  | strList : List String → PyVal
deriving DecidableEq

/-- The configuration record, with exactly the fields `__init__` reads
(lines 12-31 of the source). It has no `model_name` field because the source
never reads one from the config. -/
structure Config where
  clip : PyVal
  device : PyVal
  strategy : PyVal
  n_epochs : PyVal
  vocab_size : PyVal
  iters_to_accumulate : PyVal
  early_stop : PyVal
  patience : PyVal
  learning_rate : PyVal
  ckpt_path : PyVal

/-- `self.<n> = v`: later assignments shadow earlier ones (lookup finds the
most recent binding first). -/
def pySetattr (a : List (String × PyVal)) (n : String) (v : PyVal) :
    List (String × PyVal) :=
  (n, v) :: a

/-- Reading `self.<n>`: `none` models an `AttributeError`. -/
def pyGetattr (a : List (String × PyVal)) (n : String) : Option PyVal :=
  a.lookup n

/-- `record_keys` (source lines 33-34). -/
def record_keys : List String :=
  ["epoch", "train_loss", "train_ppl", "valid_loss",
   "valid_ppl", "learning_rate", "train_time"]

/-- `Trainer.__init__(config, model, train_dataloader, valid_dataloader)`,
source lines 8-34, transcribed assignment by assignment in source order.
Line 32 builds `record_path` from `self.model_name`, which none of the
preceding assignments ever set. -/
def Trainer.init (config : Config) (model train_dataloader valid_dataloader : PyVal) :
    Except String (List (String × PyVal)) :=
  let a := pySetattr [] "model" model
  let a := pySetattr a "clip" config.clip
  let a := pySetattr a "device" config.device
  let a := pySetattr a "strategy" config.strategy
  let a := pySetattr a "n_epochs" config.n_epochs
  let a := pySetattr a "vocab_size" config.vocab_size
  let a := pySetattr a "scaler" (PyVal.obj "GradScaler")
  let a := pySetattr a "iters_to_accumulate" config.iters_to_accumulate
  let a := pySetattr a "early_stop" config.early_stop
  let a := pySetattr a "patience" config.patience
  let a := pySetattr a "train_dataloader" train_dataloader
  let a := pySetattr a "valid_dataloader" valid_dataloader
  let a := pySetattr a "bert_optimizer" (PyVal.obj "AdamW")
  let a := pySetattr a "optimizer" (PyVal.obj "AdamW")
  let a := pySetattr a "scheduler" (PyVal.obj "ReduceLROnPlateau")
  let a := pySetattr a "ckpt_path" config.ckpt_path
  match pyGetattr a "model_name" with
  | none => Except.error "AttributeError: Trainer object has no attribute model_name"
  | some v =>
      let nm := match v with | PyVal.str s => s | _ => ""
      let a := pySetattr a "record_path" (PyVal.str ("ckpt/" ++ nm ++ ".json"))
      let a := pySetattr a "record_keys" (PyVal.strList record_keys)
      Except.ok a

/-! ### `measure_time` (source lines 48-53) -/

/-- Python `int(q)`: truncation toward zero. -/
def pyIntOf (q : ℚ) : ℤ :=
  if 0 ≤ q then ⌊q⌋ else ⌈q⌉

/-- `measure_time(start_time, end_time)`, source lines 48-53. -/
def measure_time (start_time end_time : ℚ) : String :=
  let elapsed_time := end_time - start_time
  let elapsed_min := pyIntOf (elapsed_time / 60)
  let elapsed_sec := pyIntOf (elapsed_time - elapsed_min * 60)
  s!"{elapsed_min}m {elapsed_sec}s"

/-! ### The epoch loop of `train()` (source lines 56-82)

The loop body calls `self.train_epoch()` and `self.valid_epoch()`, reads the
primary optimizer's current learning rate and formats the elapsed wall time;
all four depend on the opaque model/data/optimizer collaborators, so they
enter the model as arbitrary per-epoch functions `res`, `lr`, `tm`.  The loop
itself (record assembly, scheduler step, best-loss comparison, checkpoint
write, final record-file write) is transcribed from the source. -/

/-- The `(loss, ppl)` pairs an epoch's two passes return (values only; the
algebraic relation between each pair is proved separately on `train_epoch` /
`valid_epoch` below). -/
structure EpochResult where
  train_loss : ℚ
  train_ppl : ℚ
  valid_loss : ℚ
  valid_ppl : ℚ

/-- A JSON value of a record entry. -/
inductive RVal where
  | nat : ℕ → RVal
  | rat : ℚ → RVal
  | str : String → RVal
deriving DecidableEq

/-- One epoch's `record_dict` (source lines 61-64): the dict built by zipping
`record_keys` with `record_vals`. -/
def mkRecord (res : ℕ → EpochResult) (lr : ℕ → ℚ) (tm : ℕ → String)
    (epoch : ℕ) : List (String × RVal) :=
  record_keys.zip
    [RVal.nat epoch,
     RVal.rat (res epoch).train_loss, RVal.rat (res epoch).train_ppl,
     RVal.rat (res epoch).valid_loss, RVal.rat (res epoch).valid_ppl,
     RVal.rat (lr epoch), RVal.str (tm epoch)]

/-- `best_loss > val_loss` where `best_loss` starts as `float(inf)` (modelled
by `none`): the strict-comparison guard on the checkpoint write (line 73). -/
def ltBest (val_loss : ℚ) (best : Option ℚ) : Bool :=
  match best with
  | none => true
  | some b => decide (val_loss < b)

/-- The mutable state of the `train()` loop: `best_loss`, the in-memory
`records` list, and the trace of checkpoint-file writes (`torch.save` calls,
line 75, recorded by epoch index). -/
structure LoopState where
  best : Option ℚ
  records : List (List (String × RVal))
  ckptWrites : List ℕ

/-- One iteration of the `for epoch in range(1, n_epochs+1)` body
(source lines 58-78). -/
def trainStep (res : ℕ → EpochResult) (lr : ℕ → ℚ) (tm : ℕ → String)
    (st : LoopState) (epoch : ℕ) : LoopState :=
  let record_dict := mkRecord res lr tm epoch
  let records := st.records ++ [record_dict]
  let val_loss := (res epoch).valid_loss
  if ltBest val_loss st.best then
    { best := some val_loss, records := records,
      ckptWrites := st.ckptWrites ++ [epoch] }
  else
    { st with records := records }

/-- The observable output of one `train()` call: the final records list, the
checkpoint-write trace, and the record-file writes (each write carrying the
serialized records). -/
structure TrainOutput where
  records : List (List (String × RVal))
  ckptWrites : List ℕ
  recordFileWrites : List (List (List (String × RVal)))

/-- `train()`, source lines 56-82.  `early_stop` and `patience` are the stored
configuration fields (lines 21-22); the transcription shows they are never
consulted by the loop. -/
def Trainer.train (n_epochs : ℕ) (res : ℕ → EpochResult) (lr : ℕ → ℚ)
    (tm : ℕ → String) (early_stop : Bool) (patience : ℕ) : TrainOutput :=
  let final := (List.range' 1 n_epochs).foldl (trainStep res lr tm)
    ⟨none, [], []⟩
  { records := final.records,
    ckptWrites := final.ckptWrites,
    recordFileWrites := [final.records] }

/-! #### Closed forms for the loop state -/

/-- `best_loss` after epochs `1..k` have been processed. -/
def runBest (vl : ℕ → ℚ) : ℕ → Option ℚ
  | 0 => none
  | k + 1 => if ltBest (vl (k + 1)) (runBest vl k) then some (vl (k + 1))
             else runBest vl k

/-- The checkpoint-write guard at epoch `e`. -/
def writesAt (vl : ℕ → ℚ) (e : ℕ) : Bool :=
  ltBest (vl e) (runBest vl (e - 1))

theorem trainLoop_invariant (res : ℕ → EpochResult) (lr : ℕ → ℚ)
    (tm : ℕ → String) (k : ℕ) :
    (List.range' 1 k).foldl (trainStep res lr tm) ⟨none, [], []⟩ =
      ⟨runBest (fun e => (res e).valid_loss) k,
       (List.range' 1 k).map (mkRecord res lr tm),
       (List.range' 1 k).filter (writesAt (fun e => (res e).valid_loss))⟩ := by
  induction k with
  | zero => rfl
  | succ k ih =>
      rw [List.range'_concat, List.foldl_append, ih, List.foldl_cons,
        List.foldl_nil]
      have h1k : 1 + 1 * k = k + 1 := by omega
      rw [h1k, List.map_append, List.filter_append]
      unfold trainStep
      simp only [runBest, writesAt, Nat.add_sub_cancel]
      by_cases h : ltBest ((res (k + 1)).valid_loss)
          (runBest (fun e => (res e).valid_loss) k)
      · simp [h, writesAt]
      · simp [h, writesAt]

/-- `best_loss` after `k` epochs is beaten by `x` exactly when `x` is strictly
below every one of the first `k` validation losses (vacuously for `k = 0`,
where `best_loss` is still `float(inf)`). -/
theorem ltBest_runBest (vl : ℕ → ℚ) : ∀ (k : ℕ) (x : ℚ),
    ltBest x (runBest vl k) = true ↔ ∀ i, 1 ≤ i → i ≤ k → x < vl i := by
  intro k
  induction k with
  | zero =>
      intro x
      simp only [runBest, ltBest]
      constructor
      · intro _ i h1 h2
        omega
      · intro _
        trivial
  | succ k ih =>
      intro x
      by_cases h : ltBest (vl (k + 1)) (runBest vl k) = true
      · have hk := (ih (vl (k + 1))).mp h
        simp only [runBest]
        rw [if_pos h]
        simp only [ltBest, decide_eq_true_eq]
        constructor
        · intro hx i h1 h2
          rcases Nat.lt_or_ge i (k + 1) with hi | hi
          · exact lt_trans hx (hk i h1 (by omega))
          · have hik : i = k + 1 := by omega
            subst hik
            exact hx
        · intro hall
          exact hall (k + 1) (by omega) le_rfl
      · have hn := (Iff.not (ih (vl (k + 1)))).mp h
        push_neg at hn
        obtain ⟨i₀, h1₀, h2₀, h3₀⟩ := hn
        simp only [runBest]
        rw [if_neg h, ih x]
        constructor
        · intro hall i h1 h2
          rcases Nat.lt_or_ge i (k + 1) with hi | hi
          · exact hall i h1 (by omega)
          · have hik : i = k + 1 := by omega
            subst hik
            exact lt_of_lt_of_le (hall i₀ h1₀ h2₀) h3₀
        · intro hall i h1 h2
          exact hall i h1 (by omega)

/-- The checkpoint guard at epoch `e`, spelled out: `torch.save` runs at epoch
`e` exactly when `e`'s validation loss is strictly below all earlier ones. -/
theorem writesAt_iff (vl : ℕ → ℚ) (e : ℕ) (he : 1 ≤ e) :
    writesAt vl e = true ↔ ∀ i, 1 ≤ i → i < e → vl e < vl i := by
  unfold writesAt
  rw [ltBest_runBest]
  constructor
  · intro hall i h1 h2
    exact hall i h1 (by omega)
  · intro hall i h1 h2
    exact hall i h1 (by omega)

theorem train_ckptWrites_eq (E : ℕ) (res : ℕ → EpochResult) (lr : ℕ → ℚ)
    (tm : ℕ → String) (es : Bool) (p : ℕ) :
    (Trainer.train E res lr tm es p).ckptWrites =
      (List.range' 1 E).filter (writesAt (fun e => (res e).valid_loss)) := by
  unfold Trainer.train
  rw [trainLoop_invariant]

theorem train_records_eq (E : ℕ) (res : ℕ → EpochResult) (lr : ℕ → ℚ)
    (tm : ℕ → String) (es : Bool) (p : ℕ) :
    (Trainer.train E res lr tm es p).records =
      (List.range' 1 E).map (mkRecord res lr tm) := by
  unfold Trainer.train
  rw [trainLoop_invariant]

/-- Claim C3: during `train()`, the checkpoint file is (over)written in epoch
`e` iff epoch `e`'s validation loss is strictly below every previous epoch's
validation loss (`best_loss` starting at `float(inf)`); and for a validation
loss sequence that never improves on epoch 1, the checkpoint is written
exactly once, at epoch 1. -/
theorem c3_checkpoint_write_iff (E : ℕ) (res : ℕ → EpochResult) (lr : ℕ → ℚ)
    (tm : ℕ → String) (es : Bool) (p : ℕ) :
    (∀ e, e ∈ (Trainer.train E res lr tm es p).ckptWrites ↔
        1 ≤ e ∧ e ≤ E ∧
          ∀ i, 1 ≤ i → i < e → (res e).valid_loss < (res i).valid_loss) ∧
    (1 ≤ E →
      (∀ e, 2 ≤ e → e ≤ E → (res 1).valid_loss ≤ (res e).valid_loss) →
      (Trainer.train E res lr tm es p).ckptWrites = [1]) := by
  constructor
  · intro e
    rw [train_ckptWrites_eq, List.mem_filter, List.mem_range'_1]
    constructor
    · rintro ⟨hmem, hw⟩
      have he : 1 ≤ e := hmem.1
      exact ⟨he, by omega, (writesAt_iff _ e he).mp hw⟩
    · rintro ⟨h1, h2, hall⟩
      exact ⟨⟨h1, by omega⟩, (writesAt_iff _ e h1).mpr hall⟩
  · intro hE hmono
    rw [train_ckptWrites_eq]
    obtain ⟨k, rfl⟩ : ∃ k, E = k + 1 := ⟨E - 1, by omega⟩
    rw [List.range'_succ, List.filter_cons_of_pos]
    · rw [List.filter_eq_nil_iff.mpr]
      intro a ha
      rw [List.mem_range'_1] at ha
      intro htrue
      have hlt := (writesAt_iff _ a (by omega)).mp htrue 1 (by omega) (by omega)
      exact absurd hlt (not_lt.mpr (hmono a (by omega) (by omega)))
    · rfl

/-- Claim C4: with a validation loss sequence that strictly decreases every
epoch, `train()` (re)writes the checkpoint file exactly `E` times, once per
epoch. -/
theorem c4_checkpoint_every_epoch (E : ℕ) (res : ℕ → EpochResult)
    (lr : ℕ → ℚ) (tm : ℕ → String) (es : Bool) (p : ℕ)
    (hdec : ∀ e, 1 ≤ e → e < E →
      (res (e + 1)).valid_loss < (res e).valid_loss) :
    (Trainer.train E res lr tm es p).ckptWrites = List.range' 1 E ∧
    (Trainer.train E res lr tm es p).ckptWrites.length = E := by
  have chain : ∀ j, j ≤ E → ∀ i, 1 ≤ i → i < j →
      (res j).valid_loss < (res i).valid_loss := by
    intro j
    induction j with
    | zero =>
        intro _ i h1 h2
        omega
    | succ j ihj =>
        intro hjE i h1 h2
        rcases Nat.lt_or_ge i j with hij | hij
        · exact lt_trans (hdec j (by omega) (by omega))
            (ihj (by omega) i h1 hij)
        · have hij2 : i = j := by omega
          subst hij2
          exact hdec i h1 (by omega)
  have hself : (List.range' 1 E).filter
      (writesAt (fun e => (res e).valid_loss)) = List.range' 1 E := by
    rw [List.filter_eq_self]
    intro a ha
    rw [List.mem_range'_1] at ha
    exact (writesAt_iff _ a (by omega)).mpr
      (fun i h1 h2 => chain a (by omega) i h1 h2)
  refine ⟨?_, ?_⟩
  · rw [train_ckptWrites_eq, hself]
  · rw [train_ckptWrites_eq, hself, List.length_range']

/-- Claim C5: `train()` writes the record file exactly once, at the very end,
and its content is the list of exactly `E` per-epoch records in epoch order
`1..E`, each carrying exactly the seven keys `epoch`, `train_loss`,
`train_ppl`, `valid_loss`, `valid_ppl`, `learning_rate`, `train_time`. -/
theorem c5_record_file_shape (E : ℕ) (res : ℕ → EpochResult) (lr : ℕ → ℚ)
    (tm : ℕ → String) (es : Bool) (p : ℕ) :
    (Trainer.train E res lr tm es p).recordFileWrites =
        [(Trainer.train E res lr tm es p).records] ∧
    (Trainer.train E res lr tm es p).records =
        (List.range' 1 E).map (mkRecord res lr tm) ∧
    (Trainer.train E res lr tm es p).records.length = E ∧
    (∀ e, (mkRecord res lr tm e).map Prod.fst = record_keys) ∧
    (∀ e, (mkRecord res lr tm e).head? = some ("epoch", RVal.nat e)) := by
  refine ⟨rfl, train_records_eq E res lr tm es p, ?_, fun e => rfl, fun e => rfl⟩
  rw [train_records_eq, List.length_map, List.length_range']

/-- Claim C8: `train()` always performs exactly `n_epochs` epoch iterations —
the stored `early_stop` flag and `patience` count are never consulted, and no
early exit of the epoch loop exists, whatever the validation losses. -/
theorem c8_exactly_n_epochs (E : ℕ) (res : ℕ → EpochResult) (lr : ℕ → ℚ)
    (tm : ℕ → String) :
    (∀ es p es2 p2,
      Trainer.train E res lr tm es p = Trainer.train E res lr tm es2 p2) ∧
    (∀ es p, (Trainer.train E res lr tm es p).records.length = E) := by
  refine ⟨fun es p es2 p2 => rfl, fun es p => ?_⟩
  rw [train_records_eq, List.length_map, List.length_range']

/-- Witness for C3: a run of 3 epochs whose validation loss is constantly 5
(so it never improves after epoch 1) checkpoints exactly once, at epoch 1. -/
theorem c3_checkpoint_write_iff_witness :
    (Trainer.train 3 (fun _ => ⟨1, 2, 5, 3⟩) (fun _ => 1) (fun _ => "0m 0s")
      false 0).ckptWrites = [1] :=
  (c3_checkpoint_write_iff 3 (fun _ => ⟨1, 2, 5, 3⟩) (fun _ => 1)
    (fun _ => "0m 0s") false 0).2 (by norm_num)
    (fun e h2 hE => le_refl 5)

/-- Witness for C4: a run of 3 epochs with validation losses -1, -2, -3
checkpoints at every epoch. -/
theorem c4_checkpoint_every_epoch_witness :
    (Trainer.train 3 (fun e => ⟨0, 0, -(e : ℚ), 0⟩) (fun _ => 1)
      (fun _ => "0m 0s") false 0).ckptWrites = List.range' 1 3 ∧
    (Trainer.train 3 (fun e => ⟨0, 0, -(e : ℚ), 0⟩) (fun _ => 1)
      (fun _ => "0m 0s") false 0).ckptWrites.length = 3 :=
  c4_checkpoint_every_epoch 3 (fun e => ⟨0, 0, -(e : ℚ), 0⟩) (fun _ => 1)
    (fun _ => "0m 0s") false 0
    (fun e h1 h2 => by
      show (-(((e + 1 : ℕ) : ℚ))) < -((e : ℚ))
      push_cast
      linarith)

/-- Claim C2: for every configuration and model, `Trainer.__init__` fails with
an uncaught `AttributeError` — line 32 reads `self.model_name`, which no
preceding assignment ever set and which is read neither from the config nor
from the model — so `train()` can never run. -/
theorem c2_init_attribute_error (config : Config)
    (model train_dataloader valid_dataloader : PyVal) :
    Trainer.init config model train_dataloader valid_dataloader =
      Except.error
        "AttributeError: Trainer object has no attribute model_name" := by
  rfl

/-- For `end_time ≥ start_time`, `measure_time` computes minutes by floor
division by 60 and seconds as the truncated remainder. -/
theorem measure_time_eq (s e : ℚ) (h : s ≤ e) :
    measure_time s e =
      s!"{⌊(e - s) / 60⌋}m {⌊e - s⌋ - 60 * ⌊(e - s) / 60⌋}s" := by
  have h0 : (0 : ℚ) ≤ e - s := by linarith
  have hdiv : (0 : ℚ) ≤ (e - s) / 60 := by positivity
  have hfl : ((⌊(e - s) / 60⌋ : ℚ)) * 60 ≤ e - s := by
    have hle := Int.floor_le ((e - s) / 60)
    have h60 : ((⌊(e - s) / 60⌋ : ℚ)) * 60 ≤ ((e - s) / 60) * 60 := by
      nlinarith
    calc ((⌊(e - s) / 60⌋ : ℚ)) * 60 ≤ ((e - s) / 60) * 60 := h60
      _ = e - s := by ring
  have hsec : ⌊(e - s) - ((⌊(e - s) / 60⌋ : ℚ)) * 60⌋ =
      ⌊e - s⌋ - 60 * ⌊(e - s) / 60⌋ := by
    rw [show ((⌊(e - s) / 60⌋ : ℚ)) * 60 =
      (((60 * ⌊(e - s) / 60⌋ : ℤ)) : ℚ) by push_cast; ring]
    rw [Int.floor_sub_int]
  simp only [measure_time, pyIntOf]
  rw [if_pos hdiv, if_pos (by linarith : (0 : ℚ) ≤
    (e - s) - ((⌊(e - s) / 60⌋ : ℚ)) * 60), hsec]

/-- Claim C9: `measure_time` formats the elapsed seconds with truncation
toward zero (floor division for nonnegative durations), and in particular
`measure_time(0, 125) = "2m 5s"`, `measure_time(0, 59) = "0m 59s"`,
`measure_time(0, 3600) = "60m 0s"`. -/
theorem c9_measure_time :
    (∀ s e : ℚ, s ≤ e → measure_time s e =
      s!"{⌊(e - s) / 60⌋}m {⌊e - s⌋ - 60 * ⌊(e - s) / 60⌋}s") ∧
    measure_time 0 125 = "2m 5s" ∧
    measure_time 0 59 = "0m 59s" ∧
    measure_time 0 3600 = "60m 0s" := by
  refine ⟨measure_time_eq, ?_, ?_, ?_⟩
  · rw [measure_time_eq 0 125 (by norm_num),
      show ⌊((125 : ℚ) - 0) / 60⌋ = 2 by rw [Int.floor_eq_iff]; norm_num,
      show ⌊(125 : ℚ) - 0⌋ = 125 by rw [Int.floor_eq_iff]; norm_num]
    decide
  · rw [measure_time_eq 0 59 (by norm_num),
      show ⌊((59 : ℚ) - 0) / 60⌋ = 0 by rw [Int.floor_eq_iff]; norm_num,
      show ⌊(59 : ℚ) - 0⌋ = 59 by rw [Int.floor_eq_iff]; norm_num]
    decide
  · rw [measure_time_eq 0 3600 (by norm_num),
      show ⌊((3600 : ℚ) - 0) / 60⌋ = 60 by rw [Int.floor_eq_iff]; norm_num,
      show ⌊(3600 : ℚ) - 0⌋ = 3600 by rw [Int.floor_eq_iff]; norm_num]
    decide

/-- Witness for C9: the general truncation clause applied at `(0, 125)`. -/
theorem c9_measure_time_witness :
    measure_time 0 125 =
      s!"{⌊((125 : ℚ) - 0) / 60⌋}m {⌊(125 : ℚ) - 0⌋ - 60 * ⌊((125 : ℚ) - 0) / 60⌋}s" :=
  c9_measure_time.1 0 125 (by norm_num)

/-! ### The two passes: `train_epoch` (source lines 86-107) and
`valid_epoch` (source lines 111-127)

Each pass iterates its data source; the loss the model returns on each batch
is an arbitrary real, so a pass is a function of the list of per-batch
losses.  The division by `tot_len` is Python's true division, which raises
`ZeroDivisionError` on a zero denominator (embedded as `pydiv` into
`Option`). -/

/-- Python float true division: `none` models a `ZeroDivisionError`. -/
noncomputable def pydiv (a b : ℝ) : Option ℝ :=
  if b = 0 then none else some (a / b)

/-- Python `round(x, 3)`: round to 3 decimal places. -/
noncomputable def round3 (x : ℝ) : ℝ :=
  ((round (x * 1000) : ℤ) : ℝ) / 1000

/-- `train_epoch()`, source lines 86-107: `epoch_loss` accumulates every
batch's loss (line 103), the mean is rounded to 3 decimals and the perplexity
is `exp` of that rounded mean, rounded to 3 decimals. -/
noncomputable def train_epoch (losses : List ℝ) : Option (ℝ × ℝ) :=
  let tot_len : ℕ := losses.length
  let epoch_loss : ℝ := losses.foldl (fun acc loss => acc + loss) 0
  (pydiv epoch_loss tot_len).map fun mean =>
    let out_loss := round3 mean
    (out_loss, round3 (Real.exp out_loss))

/-- `valid_epoch()`, source lines 111-127: the loop body computes each
batch's loss (line 122) but never adds it to `epoch_loss`, which keeps its
initial value `0` (line 113) when the mean is taken (line 125). -/
noncomputable def valid_epoch (losses : List ℝ) : Option (ℝ × ℝ) :=
  let tot_len : ℕ := losses.length
  let epoch_loss : ℝ := losses.foldl (fun acc loss => acc) 0
  (pydiv epoch_loss tot_len).map fun mean =>
    let out_loss := round3 mean
    (out_loss, round3 (Real.exp out_loss))

theorem foldl_keep_acc (losses : List ℝ) :
    losses.foldl (fun acc loss => acc) (0 : ℝ) = 0 := by
  induction losses with
  | nil => rfl
  | cons a l ih => exact ih

theorem foldl_add_eq_sum (l : List ℝ) :
    l.foldl (fun acc loss => acc + loss) 0 = l.sum :=
  (List.sum_eq_foldl).symm

theorem round3_zero : round3 0 = 0 := by
  unfold round3
  norm_num

theorem round3_one : round3 1 = 1 := by
  unfold round3
  rw [one_mul, show ((1000 : ℝ)) = (((1000 : ℤ)) : ℝ) by norm_num,
    round_intCast]
  norm_num

/-- Claim C1: whatever losses the model produces on the validation batches,
`valid_epoch` returns `valid_loss = 0.0` and `valid_ppl = 1.0`, because the
running accumulator is never updated inside the validation loop. -/
theorem c1_valid_epoch_constant (losses : List ℝ) (h : losses ≠ []) :
    valid_epoch losses = some (0, 1) := by
  have hlen : ((losses.length : ℝ)) ≠ 0 := by
    have hl : losses.length ≠ 0 := fun h0 => h (List.length_eq_zero.mp h0)
    exact_mod_cast hl
  simp only [valid_epoch, foldl_keep_acc, pydiv, if_neg hlen,
    Option.map_some', zero_div, round3_zero, Real.exp_zero, round3_one]

/-- Witness for C1: one validation batch with loss 3.7 still yields
`(0.0, 1.0)`. -/
theorem c1_valid_epoch_constant_witness :
    valid_epoch [(37 : ℝ) / 10] = some (0, 1) :=
  c1_valid_epoch_constant [(37 : ℝ) / 10] (by simp)

/-- Claim C6: whenever `train_epoch` returns a pair, the returned loss is the
mean of the per-batch losses rounded to 3 decimals and the returned
perplexity is `exp` of that returned loss, rounded to 3 decimals. -/
theorem c6_train_epoch_ppl_exp_loss (losses : List ℝ) (l p : ℝ)
    (h : train_epoch losses = some (l, p)) :
    l = round3 (losses.sum / losses.length) ∧ p = round3 (Real.exp l) := by
  by_cases h0 : ((losses.length : ℝ)) = 0
  · rw [train_epoch] at h
    simp only [pydiv, if_pos h0, Option.map_none'] at h
    exact Option.noConfusion h
  · rw [train_epoch] at h
    simp only [pydiv, if_neg h0, Option.map_some', foldl_add_eq_sum] at h
    have h' := Option.some.inj h
    have h1 : round3 (losses.sum / losses.length) = l := congrArg Prod.fst h'
    have h2 : round3 (Real.exp (round3 (losses.sum / losses.length))) = p :=
      congrArg Prod.snd h'
    refine ⟨h1.symm, ?_⟩
    rw [← h2, h1]

/-- Witness for C6 at a single batch of loss 0: `train_epoch` returns loss
`round3 0` and perplexity `round3 (exp (round3 0))`. -/
theorem c6_train_epoch_ppl_exp_loss_witness :
    (0 : ℝ) = round3 ([(0 : ℝ)].sum / ([(0 : ℝ)].length : ℝ)) ∧
    (1 : ℝ) = round3 (Real.exp 0) :=
  c6_train_epoch_ppl_exp_loss [(0 : ℝ)] 0 1 (by
    rw [train_epoch]
    simp only [pydiv, List.length_cons, List.length_nil, Nat.cast_one,
      one_ne_zero, if_neg, Option.map_some', List.foldl_cons, List.foldl_nil,
      zero_add, zero_div, round3_zero, Real.exp_zero, round3_one]
    norm_num [round3_zero, Real.exp_zero, round3_one])

/-- Claim C10: with zero batches, both passes hit an unguarded division by
zero when taking the mean (`ZeroDivisionError`); with at least one batch the
mean computation succeeds. -/
theorem c10_empty_source_division_error :
    train_epoch [] = none ∧ valid_epoch [] = none ∧
    ∀ losses : List ℝ, losses ≠ [] →
      (train_epoch losses).isSome = true ∧
      (valid_epoch losses).isSome = true := by
  refine ⟨?_, ?_, ?_⟩
  · simp [train_epoch, pydiv]
  · simp [valid_epoch, pydiv]
  · intro losses h
    have hlen : ((losses.length : ℝ)) ≠ 0 := by
      have hl : losses.length ≠ 0 := fun h0 => h (List.length_eq_zero.mp h0)
      exact_mod_cast hl
    constructor
    · simp [train_epoch, pydiv, if_neg hlen]
      exact h
    · simp [valid_epoch, pydiv, if_neg hlen]
      exact h

/-- Witness for C10: one batch makes both means well-defined. -/
theorem c10_empty_source_division_error_witness :
    (train_epoch [(1 : ℝ)]).isSome = true ∧
    (valid_epoch [(1 : ℝ)]).isSome = true :=
  c10_empty_source_division_error.2.2 [(1 : ℝ)] (by simp)

/-! ### Effect trace of the `train_epoch` batch loop (source lines 91-103) -/

/-- The side effects one batch iteration can perform. `bertOptimizerStep` and
`scalerStep` are the steps of the secondary optimizer (line 27) and of the
gradient scaler (line 18); the transcription of the loop shows they are never
emitted. -/
inductive Event where
  | toDevice : Event
  | forward : Event
  | backward : Event
  | clipGrad : Event
  | optimizerStep : Event
  | bertOptimizerStep : Event
  | scalerStep : Event
  | zeroGrad : Event
  | addLoss : Event
deriving DecidableEq

/-- The effects of one iteration of `for idx, batch in enumerate(...)`
(source lines 91-103), in program order: move the batch to the device,
forward, backward, clip, `self.optimizer.step()`, `self.optimizer.zero_grad()`,
accumulate the loss. -/
def batchEvents : List Event :=
  [Event.toDevice, Event.forward, Event.backward, Event.clipGrad,
   Event.optimizerStep, Event.zeroGrad, Event.addLoss]

/-- The effect trace of `train_epoch` over `B` batches.  The configured
accumulation interval `iters_to_accumulate` (source line 19) is in scope but
the loop body never consults it. -/
def trainEpochEvents (B : ℕ) (iters_to_accumulate : ℕ) : List Event :=
  (List.range B).foldl (fun tr _ => tr ++ batchEvents) []

theorem trainEpochEvents_succ (B k : ℕ) :
    trainEpochEvents (B + 1) k = trainEpochEvents B k ++ batchEvents := by
  unfold trainEpochEvents
  rw [List.range_succ, List.foldl_append, List.foldl_cons, List.foldl_nil]

theorem trainEpochEvents_eq_join (B k : ℕ) :
    trainEpochEvents B k = List.flatten (List.replicate B batchEvents) := by
  induction B with
  | zero => rfl
  | succ B ih =>
      rw [trainEpochEvents_succ, ih, List.replicate_succ', List.flatten_append]
      simp

theorem count_trainEpochEvents (B k : ℕ) (e : Event) :
    (trainEpochEvents B k).count e = B * batchEvents.count e := by
  induction B with
  | zero => rw [Nat.zero_mul]; rfl
  | succ B ih =>
      rw [trainEpochEvents_succ, List.count_append, ih]
      ring

theorem flatten_replicate_step_then_zero (B : ℕ) :
    ∀ i, (List.flatten (List.replicate B batchEvents)).get? i =
        some Event.optimizerStep →
      (List.flatten (List.replicate B batchEvents)).get? (i + 1) =
        some Event.zeroGrad := by
  induction B with
  | zero =>
      intro i h
      simp at h
  | succ B ih =>
      intro i h
      rw [List.replicate_succ, List.flatten_cons] at h ⊢
      rcases i with _ | _ | _ | _ | _ | _ | _ | i
      · exact absurd (Option.some.inj h) (by decide)
      · exact absurd (Option.some.inj h) (by decide)
      · exact absurd (Option.some.inj h) (by decide)
      · exact absurd (Option.some.inj h) (by decide)
      · rfl
      · exact absurd (Option.some.inj h) (by decide)
      · exact absurd (Option.some.inj h) (by decide)
      · exact ih i h

/-- Claim C7: in `train_epoch`, the primary optimizer steps exactly once per
batch with the gradients zeroed immediately after every step, the secondary
optimizer and the scaler never step, and the trace is independent of the
configured gradient-accumulation interval — so parameters are mutated once
per batch with no gradient accumulation across batches. -/
theorem c7_step_once_per_batch (B k k2 : ℕ) :
    (trainEpochEvents B k).count Event.optimizerStep = B ∧
    (trainEpochEvents B k).count Event.bertOptimizerStep = 0 ∧
    (trainEpochEvents B k).count Event.scalerStep = 0 ∧
    (trainEpochEvents B k).count Event.zeroGrad = B ∧
    (∀ i, (trainEpochEvents B k).get? i = some Event.optimizerStep →
      (trainEpochEvents B k).get? (i + 1) = some Event.zeroGrad) ∧
    trainEpochEvents B k = trainEpochEvents B k2 := by
  refine ⟨?_, ?_, ?_, ?_, ?_, rfl⟩
  · rw [count_trainEpochEvents, show batchEvents.count Event.optimizerStep = 1
      from by decide, Nat.mul_one]
  · rw [count_trainEpochEvents,
      show batchEvents.count Event.bertOptimizerStep = 0 from by decide,
      Nat.mul_zero]
  · rw [count_trainEpochEvents,
      show batchEvents.count Event.scalerStep = 0 from by decide,
      Nat.mul_zero]
  · rw [count_trainEpochEvents, show batchEvents.count Event.zeroGrad = 1
      from by decide, Nat.mul_one]
  · rw [trainEpochEvents_eq_join]
    exact flatten_replicate_step_then_zero B

/-- Witness for C7: over 2 batches (accumulation interval 5) the primary
optimizer steps exactly twice, and the step at trace index 4 is immediately
followed by a gradient zeroing. -/
theorem c7_step_once_per_batch_witness :
    (trainEpochEvents 2 5).count Event.optimizerStep = 2 ∧
    (trainEpochEvents 2 5).get? (4 + 1) = some Event.zeroGrad :=
  ⟨(c7_step_once_per_batch 2 5 7).1,
   (c7_step_once_per_batch 2 5 7).2.2.2.2.1 4 (by decide)⟩
